import Mathlib

/-!
Shallow embedding of the mor4 remote-data synchronization engine
(osu! score tracker): mod canonicalization (src/util/Common.ts), the
request executor with token refresh and exponential backoff
(OsuWrapper.makeRequest), the sqlite storage gateway
(DatabaseManager), and the sync procedures of DatabaseUpdater
(getNewScores, removeDuplicateScores, updateUsers).

JavaScript strings are modelled as Lean `String`, numbers as `Nat`,
`Int` or `Rat` as appropriate, thrown `TypeError`/`RangeError` as an
explicit error type, and `undefined` results as `Option`.
-/

namespace MOR4

/-- Errors thrown by the TypeScript code: `TypeError` and `RangeError`. -/
inductive JsError where
  | typeError (msg : String)
  | rangeError (msg : String)
deriving DecidableEq, Repr

/-- Priority order of osu! mods, `modOrder` in `sortOsuMods` (Common.ts). -/
def modOrder : List String :=
  ["NF", "EZ", "HD", "HR", "SD", "DT", "NC", "HT", "FL", "SO", "PF"]

/-- Values of the `OsuMod` enum (Common.ts), in declaration order. -/
def osuModValues : List String :=
  ["EZ", "NF", "HT", "SO", "HR", "SD", "PF", "DT", "NC", "HD", "FL"]

/-- Values of the `MORMod` enum (Common.ts), in declaration order: the
partition keys, one sqlite table per key. -/
def morModValues : List String :=
  ["NM", "DT", "HR", "HD", "EZ", "HT", "FL",
   "HDDT", "HRDT", "EZDT", "DTFL", "EZHT", "HDHR", "HDHT", "EZHD", "HRHT",
   "EZFL", "HRFL", "HTFL", "HDFL",
   "HDHRDT", "HDDTFL", "EZHDDT", "HRDTFL", "EZDTFL", "HDHTFL", "HDHRHT", "HRHTFL",
   "EZHDHT", "EZHTFL", "EZHDFL", "HDHRFL",
   "HDHRDTFL", "EZHDDTFL", "EZHDHTFL", "HDHRHTFL"]

/-- JavaScript `Array.prototype.indexOf`: index of the first occurrence,
`-1` if absent. -/
def jsIndexOf : List String → String → Int
  | [], _ => -1
  | x :: xs, s =>
      if x = s then 0
      else
        let r := jsIndexOf xs s
        if r = -1 then -1 else r + 1

/-- Comparator passed to `sortedMods.sort` in `sortOsuMods`
(Common.ts lines 136-148). -/
def modCompare (a b : String) : Int :=
  let aIdx := jsIndexOf modOrder a
  let bIdx := jsIndexOf modOrder b
  if aIdx = -1 ∧ bIdx = -1 then 0
  else if aIdx = -1 then 1
  else if bIdx = -1 then -1
  else aIdx - bIdx

/-- Relation "the comparator lets `a` stand (weakly) before `b`".  A JS
stable sort with a consistent comparator `c` produces the unique stable
arrangement ordered by `c · · ≤ 0`; insertion sort below realises it. -/
abbrev modLe (a b : String) : Prop := modCompare a b ≤ 0

/-- Embedding of `sortOsuMods` (Common.ts): filter out the `NM`
pseudo-token, then stable-sort by the priority comparator. -/
def sortOsuMods (mods : List String) : List String :=
  List.insertionSort modLe (mods.filter (fun m => m ≠ "NM"))

/-- JavaScript `arr.join()` (comma separator), as a char list. -/
def intercalateComma : List String → List Char
  | [] => []
  | [s] => s.data
  | s :: rest => s.data ++ ',' :: intercalateComma rest

/-- JavaScript `arr.join().replaceAll(',', '')`: join with commas, then
delete every comma character. -/
def joinNoComma (l : List String) : String :=
  ⟨(intercalateComma l).filter (fun c => c ≠ ',')⟩

/-- JavaScript `String.prototype.replace` with a string pattern: replace
only the first occurrence (or return the string unchanged). -/
def replaceFirstChars (pat rep : List Char) : List Char → List Char
  | [] => if pat = [] then rep else []
  | c :: cs =>
      if pat.isPrefixOf (c :: cs) then rep ++ (c :: cs).drop pat.length
      else c :: replaceFirstChars pat rep cs

/-- String-level wrapper for `replaceFirstChars`. -/
def replaceFirst (s pat rep : String) : String :=
  ⟨replaceFirstChars pat.data rep.data s.data⟩

/-- Embedding of `stringToMORMod` (Common.ts): return the matching
`MORMod` enum value, or throw a `TypeError`. -/
def stringToMORMod (s : String) : Except JsError String :=
  if s ∈ morModValues then .ok s
  else .error (.typeError ("stringToMORMod - " ++ s ++ " has no associated MORMod!"))

/-- Embedding of `stringToOsuMod` (Common.ts). -/
def stringToOsuMod (s : String) : Except JsError String :=
  if s ∈ osuModValues then .ok s
  else .error (.typeError ("stringToOsuMod - " ++ s ++ " has no associated OsuMod!"))

/-- Embedding of `convertOsuMods` (Common.ts lines 100-113): sort, join,
substitute NC by DT, delete NF/SO/SD/PF (first occurrence each, as
`String.replace` does), map the empty string to `NM`, and resolve
against the `MORMod` enum. -/
def convertOsuMods (mods : List String) : Except JsError String :=
  let sortedMods := sortOsuMods mods
  let p0 := joinNoComma sortedMods
  let p1 := replaceFirst p0 "NC" "DT"
  let p2 := replaceFirst p1 "NF" ""
  let p3 := replaceFirst p2 "SO" ""
  let p4 := replaceFirst p3 "SD" ""
  let p5 := replaceFirst p4 "PF" ""
  let pMods := if p5 = "" then "NM" else p5
  stringToMORMod pMods

/-- Splitting of the regex `/.{1,2}/g`: chunks of two characters, the
last chunk possibly a single character. -/
def chunkPairs : List Char → List (List Char)
  | [] => []
  | [c] => [[c]]
  | a :: b :: rest => [a, b] :: chunkPairs rest

/-- Embedding of `modStringToArray` (Common.ts): `mods.match(/.{1,2}/g) || []`. -/
def modStringToArray (s : String) : List String :=
  (chunkPairs s.data).map (fun cs => ⟨cs⟩)

/-- Embedding of `affectsStarRating` (Common.ts). -/
def affectsStarRating (mods : List String) : Bool :=
  mods.contains "DT" || mods.contains "HR" || mods.contains "EZ" ||
  mods.contains "HT" || mods.contains "FL"

deriving instance DecidableEq for Except

/-- Comparator body of `modCompare`, abstracted over the two indices
(definitionally equal to `modCompare` applied to them). -/
def cmpIdx (x y : Int) : Int :=
  if x = -1 ∧ y = -1 then 0
  else if x = -1 then 1
  else if y = -1 then -1
  else x - y

/- ------------------------------------------------------------------ -/
/- OsuWrapper.makeRequest (src/unnamed/part_006, lines 203-255): the   -/
/- request executor with 401-refresh and exponential backoff.          -/
/- ------------------------------------------------------------------ -/

/-- Outcome of one `fetch` attempt as seen by `makeRequest`: either a
response with a status code and parsed body, or a thrown `TypeError`
(transport failure, `fetchFailed`).  `jitter` is the value of
`Math.random()` this attempt would consume in the backoff branch. -/
structure FetchStep where
  failed : Bool
  code : Int
  body : Nat
  jitter : ℚ
deriving DecidableEq, Repr

/-- Status code observed by the loop body: `-1` when `fetch` threw. -/
def statusCodeOf (s : FetchStep) : Int :=
  if s.failed then -1 else s.code

/-- JavaScript `Math.round`, for the nonnegative arguments used here. -/
def jsRound (q : ℚ) : Int := ⌊q + 1 / 2⌋

/-- Leading decimal digit of a natural number (structural fuel makes it
kernel-evaluable). -/
def decFirstDigitAux : Nat → Nat → Nat
  | 0, n => n
  | fuel + 1, n => if n < 10 then n else decFirstDigitAux fuel (n / 10)

/-- Leading decimal digit of a natural number. -/
def decFirstDigit (n : Nat) : Nat := decFirstDigitAux n n

/-- JavaScript `statusCode.toString().startsWith('5')` for an integer
status code: nonnegative and with leading decimal digit 5. -/
def startsWithFive : Int → Bool
  | .ofNat n => decFirstDigit n = 5
  | .negSucc _ => false

/-- Retryable attempt: reaches the backoff branch of the status-code
chain (neither 200 nor 401 nor 404, and either 429, 5xx, or a transport
failure). -/
def retryableStep (s : FetchStep) : Prop :=
  statusCodeOf s ≠ 200 ∧ statusCodeOf s ≠ 401 ∧ statusCodeOf s ≠ 404 ∧
  (statusCodeOf s = 429 ∨ startsWithFive (statusCodeOf s) = true ∨ s.failed = true)

instance (s : FetchStep) : Decidable (retryableStep s) := by
  unfold retryableStep
  infer_instance

/-- Backoff update, `makeRequest` lines 238-242: double with jitter
below the cap, else hold at 64000 plus rounded jitter. -/
def nextDelay (delayMs : ℚ) (retries : Nat) (rand : ℚ) : ℚ :=
  if delayMs ≥ 64000 then 64000 + (jsRound (rand * 1000) : ℚ)
  else ((2 : ℚ) ^ retries + rand) * 1000

/-- Final state of a modelled `makeRequest` run. -/
inductive ReqOutcome where
  | ok (body : Nat)
  | notFound
  | unhandled (code : Int)
  | outOfSteps
deriving DecidableEq, Repr

/-- Observable trace of a `makeRequest` run: outcome, the delay slept
before each attempt, the access token attached to each attempt, and the
number of `getAccessToken` refreshes performed. -/
structure ReqTrace where
  outcome : ReqOutcome
  sleeps : List ℚ
  tokens : List Nat
  refreshes : Nat
deriving DecidableEq, Repr

/-- Loop of `OsuWrapper.makeRequest` (part_006 revision, the one with a
401 branch).  The environment supplies one `FetchStep` per attempt and
a stream `getTok` of tokens returned by successive
`OsuWrapper.getAccessToken` calls; `outOfSteps` marks runs that would
keep looping beyond the supplied attempts. -/
def makeRequestGo (getTok : Nat → Nat) :
    List FetchStep → ℚ → Nat → Nat → Nat → ReqTrace
  | [], _, _, _, rf =>
      { outcome := .outOfSteps, sleeps := [], tokens := [], refreshes := rf }
  | step :: rest, delayMs, retries, tok, rf =>
      if statusCodeOf step = 200 then
        { outcome := .ok step.body, sleeps := [delayMs], tokens := [tok], refreshes := rf }
      else if statusCodeOf step = 401 then
        let t := makeRequestGo getTok rest delayMs retries (getTok rf) (rf + 1)
        { t with sleeps := delayMs :: t.sleeps, tokens := tok :: t.tokens }
      else if statusCodeOf step = 404 then
        { outcome := .notFound, sleeps := [delayMs], tokens := [tok], refreshes := rf }
      else if statusCodeOf step = 429 ∨ startsWithFive (statusCodeOf step) = true ∨
          step.failed = true then
        let t := makeRequestGo getTok rest (nextDelay delayMs retries step.jitter)
          (retries + 1) tok rf
        { t with sleeps := delayMs :: t.sleeps, tokens := tok :: t.tokens }
      else
        { outcome := .unhandled (statusCodeOf step), sleeps := [delayMs],
          tokens := [tok], refreshes := rf }

/-- Default `MORConfig.OSU_API_COOLDOWN_MS`. -/
def OSU_API_COOLDOWN_MS : ℚ := 1000

/-- One logical `makeRequest` call: the delay starts at the configured
cooldown, the retry counter at zero, no refresh has happened yet. -/
def makeRequest (getTok : Nat → Nat) (tok0 : Nat) (steps : List FetchStep) : ReqTrace :=
  makeRequestGo getTok steps OSU_API_COOLDOWN_MS 0 tok0 0

/-- An attempt answered with HTTP 401. -/
def step401 : FetchStep := { failed := false, code := 401, body := 0, jitter := 0 }

/-- An attempt answered with HTTP 200 and the given body. -/
def stepOk (b : Nat) : FetchStep := { failed := false, code := 200, body := b, jitter := 0 }

/-- An attempt answered with HTTP 429, consuming the given jitter. -/
def step429 (j : ℚ) : FetchStep := { failed := false, code := 429, body := 0, jitter := j }

/-- Invariant tying the current delay to the retry counter inside one
`makeRequest` call (initial delay 1000, or the result of the previous
backoff update). -/
def DelayInv (d : ℚ) (r : Nat) : Prop :=
  1000 ≤ d ∧ d ≤ 65000 ∧
  (d < 64000 → (r = 0 ∧ d = 1000) ∨
    (1 ≤ r ∧ ∃ j, 0 ≤ j ∧ j < 1 ∧ d = ((2 : ℚ) ^ (r - 1) + j) * 1000))

/-- Relation between consecutive sleeps: non-decreasing below the
64-second cap, and never dropping below the cap once reached. -/
def backoffRel (a b : ℚ) : Prop :=
  (a < 64000 → a ≤ b) ∧ (64000 ≤ a → 64000 ≤ b)

/- ------------------------------------------------------------------ -/
/- DatabaseManager (src/unnamed/part_005): the sqlite storage gateway. -/
/- ------------------------------------------------------------------ -/

/-- Row of a score partition table (`MORScore`, Common.ts). -/
structure MORScore where
  scoreID : Nat
  userID : Nat
  beatmapID : Nat
  username : String
  beatmap : String
  mods : String
  pp : ℚ
  accuracy : ℚ
  starRating : ℚ
  date : String
  beatmapImageURL : String
deriving DecidableEq, Repr

/-- Row of the USERS table (`MORUser`, Common.ts). -/
structure MORUser where
  userID : Nat
  username : String
  countryCode : String
  globalRank : Nat
  pp : ℚ
  accuracy : ℚ
  playtime : Nat
  playcount : Nat
  rankedScore : Nat
  maxCombo : Nat
  replaysWatched : Nat
  pfpImageURL : String
  top1s : Nat
  top2s : Nat
  top3s : Nat
  autotrack : Bool
deriving DecidableEq, Repr

/-- State of the sqlite database: the USERS table plus one score table
per MORMod partition key (the constructor creates all 36; keys outside
`morModValues` are never addressed).  Rows are kept in insertion order,
the order `SELECT *` returns them in. -/
structure MORDb where
  users : List MORUser
  tables : String → List MORScore

/-- Database with all tables created and empty. -/
def emptyDb : MORDb := { users := [], tables := fun _ => [] }

/-- `DatabaseManager.getTableScores`: `SELECT * FROM tableName`. -/
def getTableScores (db : MORDb) (tableName : String) : List MORScore :=
  db.tables tableName

/-- `DatabaseManager.scoreExistsInTable`: positive row count for the
given primary key. -/
def scoreExistsInTable (db : MORDb) (scoreID : Nat) (tableName : String) : Bool :=
  (db.tables tableName).any (fun r => r.scoreID = scoreID)

/-- `DatabaseManager.insertScore`: the target table is derived from the
score's modifier string via `convertOsuMods(modStringToArray(mods))`;
a UNIQUE-constraint violation on the primary key (scoreID already
present) is swallowed and resolved as success with the database
unchanged; a failing key conversion rejects the promise. -/
def insertScore (db : MORDb) (score : MORScore) : Except JsError MORDb :=
  match convertOsuMods (modStringToArray score.mods) with
  | .error e => .error e
  | .ok key =>
      if scoreExistsInTable db score.scoreID key then .ok db
      else .ok { db with tables := fun k =>
          if k = key then db.tables key ++ [score] else db.tables k }

/-- `DatabaseManager.removeScore`: `DELETE FROM tableName WHERE scoreID = ?`. -/
def removeScore (db : MORDb) (scoreID : Nat) (tableName : String) : MORDb :=
  { db with tables := fun k =>
      if k = tableName then (db.tables tableName).filter (fun r => r.scoreID ≠ scoreID)
      else db.tables k }

/-- Equality of every `MORScore` column except the primary key, the
join condition of `getDuplicateScores`. -/
def sameExceptScoreID (r r' : MORScore) : Prop :=
  r.userID = r'.userID ∧ r.beatmapID = r'.beatmapID ∧ r.username = r'.username ∧
  r.beatmap = r'.beatmap ∧ r.mods = r'.mods ∧ r.pp = r'.pp ∧ r.accuracy = r'.accuracy ∧
  r.starRating = r'.starRating ∧ r.date = r'.date ∧ r.beatmapImageURL = r'.beatmapImageURL

instance (r r' : MORScore) : Decidable (sameExceptScoreID r r') := by
  unfold sameExceptScoreID
  infer_instance

/-- Rows of a table that have a duplicate partner: the self-join of
`DatabaseManager.getDuplicateScores` restricted to distinct rows (the
SQL join emits one copy per partner; `removeScore` by id makes the
multiplicity irrelevant downstream). -/
def duplicateRows (table : List MORScore) : List MORScore :=
  table.filter (fun r =>
    table.any (fun r' => decide (sameExceptScoreID r r' ∧ r'.scoreID ≠ r.scoreID)))

/-- `DatabaseManager.getDuplicateScores` on one partition table. -/
def getDuplicateScores (db : MORDb) (tableName : String) : List MORScore :=
  duplicateRows (db.tables tableName)

/-- `DatabaseManager.removeUser`: `DELETE FROM USERS WHERE userID = ?`. -/
def removeUser (db : MORDb) (userID : Nat) : MORDb :=
  { db with users := db.users.filter (fun u => u.userID ≠ userID) }

/-- `DatabaseManager.removeUserScores`: for each MORMod key, `DELETE
FROM key WHERE userID = ?`. -/
def removeUserScores (db : MORDb) (userID : Nat) : MORDb :=
  { db with tables := fun k =>
      if k ∈ morModValues then (db.tables k).filter (fun r => r.userID ≠ userID)
      else db.tables k }

/-- `DatabaseManager.updateUser`: `UPDATE USERS SET every non-key
column WHERE userID = ?`. -/
def updateUser (db : MORDb) (user : MORUser) : MORDb :=
  { db with users := db.users.map (fun u => if u.userID = user.userID then user else u) }

/-- Storage effect of `Bot.removeUserCmd` (Bot.ts lines 673-676): remove
the user row, then remove the user's scores only when the
`remove_scores` option was set. -/
def botRemoveUserEffect (db : MORDb) (userID : Nat) (removeScores : Bool) : MORDb :=
  let db1 := removeUser db userID
  if removeScores then removeUserScores db1 userID else db1

/- ------------------------------------------------------------------ -/
/- DatabaseUpdater (src/util/scripts/MoveAndUpdateMOR4Users.ts,        -/
/- first revision, lines 77-500): the sync procedures.                 -/
/- ------------------------------------------------------------------ -/

/-- Remote score payload consumed by `osuScoreToMORScore` (the fields
of an osu!API Score object that the translation reads). -/
structure OsuScore where
  id : Nat
  mods : List String
  user_id : Nat
  username : String
  pp : ℚ
  accuracy : ℚ
  created_at : String
  beatmap_id : Nat
  difficulty_rating : ℚ
  artist : String
  title : String
  version : String
  cover : String
deriving DecidableEq, Repr

/-- Embedding of `getMORBeatmapString` (Common.ts). -/
def getMORBeatmapString (s : OsuScore) : String :=
  s.artist ++ " - " ++ s.title ++ " [" ++ s.version ++ "]"

/-- Embedding of `osuScoreToMORScore` (Common.ts lines 181-206).  The
supplementary difficulty-attributes lookup is the oracle `attr`; it is
consulted only when a rating-affecting modifier is present, after
translating each modifier through `stringToOsuMod` (which can throw). -/
def osuScoreToMORScore (attr : Nat → List String → ℚ) (s : OsuScore) :
    Except JsError MORScore :=
  match (if affectsStarRating s.mods then
      (s.mods.mapM stringToOsuMod).map (fun ms => attr s.beatmap_id ms)
    else .ok s.difficulty_rating) with
  | .error e => .error e
  | .ok star => .ok
      { scoreID := s.id, userID := s.user_id, beatmapID := s.beatmap_id,
        username := s.username, beatmap := getMORBeatmapString s,
        mods := joinNoComma s.mods, pp := s.pp, accuracy := s.accuracy,
        starRating := star, date := s.created_at, beatmapImageURL := s.cover }

/-- Result of a `DatabaseUpdater` procedure: completed normally,
exited early through the `return` statement inside the score loop, or
propagated a thrown error. -/
inductive ProcResult where
  | done (db : MORDb)
  | earlyReturn (db : MORDb)
  | threw (e : JsError) (db : MORDb)

/-- Database carried by a `ProcResult`. -/
def procDb : ProcResult → MORDb
  | .done db => db
  | .earlyReturn db => db
  | .threw _ db => db

/-- Whether the procedure exited through the early `return`. -/
def isEarlyReturn : ProcResult → Bool
  | .earlyReturn _ => true
  | _ => false

/-- Inner score loop of `DatabaseUpdater.getNewScores` (lines 117-137).
`convertOsuMods` is evaluated inside a try/catch whose `TypeError` arm
logs a skip warning and then executes `return`, leaving the whole
procedure (not `continue`); scores already present are skipped;
otherwise the score is translated and inserted. -/
def processUserScores (attr : Nat → List String → ℚ) (db : MORDb) :
    List OsuScore → ProcResult
  | [] => .done db
  | s :: rest =>
      match convertOsuMods s.mods with
      | .error _ => .earlyReturn db
      | .ok key =>
          if scoreExistsInTable db s.id key then
            processUserScores attr db rest
          else
            match osuScoreToMORScore attr s with
            | .error e => .threw e db
            | .ok morScore =>
                match insertScore db morScore with
                | .error e => .threw e db
                | .ok db' => processUserScores attr db' rest

/-- The four page sets fetched for one tracked user in `getNewScores`. -/
structure UserFetch where
  userID : Nat
  tops : List OsuScore
  firsts : List OsuScore
  recents : List OsuScore
  pinned : List OsuScore

/-- Embedding of `DatabaseUpdater.getNewScores`: iterate the tracked
users, concatenate the four page sets, and run the score loop; an
early `return` raised inside any user's loop terminates the whole
procedure. -/
def getNewScores (attr : Nat → List String → ℚ) (db : MORDb) :
    List UserFetch → ProcResult
  | [] => .done db
  | u :: rest =>
      match processUserScores attr db (u.tops ++ u.firsts ++ u.recents ++ u.pinned) with
      | .done db' => getNewScores attr db' rest
      | .earlyReturn db' => .earlyReturn db'
      | .threw e db' => .threw e db'

/-- Per-score body of the `removeDuplicateScores` loop (lines 161-184):
remote lookup by id (`none` models the 404/`undefined` answer); not
found, or found with a diverging `created_at`, removes the row; the
table argument carries the evolving state. -/
def dedupProcess (lookup : Nat → Option String) :
    List MORScore → List MORScore → List MORScore
  | table, [] => table
  | table, r :: rest =>
      match lookup r.scoreID with
      | none => dedupProcess lookup (table.filter (fun x => x.scoreID ≠ r.scoreID)) rest
      | some remoteDate =>
          if r.date ≠ remoteDate then
            dedupProcess lookup (table.filter (fun x => x.scoreID ≠ r.scoreID)) rest
          else dedupProcess lookup table rest

/-- `DatabaseUpdater.removeDuplicateScores` restricted to one partition
table: fetch the duplicate rows once, then process each. -/
def removeDuplicateScoresTable (lookup : Nat → Option String)
    (table : List MORScore) : List MORScore :=
  dedupProcess lookup table (duplicateRows table)

/-- Remote user payload consumed by `updateUsers` (the fields read from
an osu!API User object). -/
structure OsuUserPayload where
  id : Nat
  username : String
  country_code : String
  global_rank : Nat
  pp : ℚ
  hit_accuracy : ℚ
  play_time : Nat
  play_count : Nat
  ranked_score : Nat
  maximum_combo : Nat
  replays_watched_by_others : Nat
  avatar_url : String
deriving DecidableEq, Repr

/-- Relation realising the sort comparator `(a, b) => b.pp - a.pp`:
performance points descending. -/
abbrev ppDescLe (a b : MORScore) : Prop := b.pp ≤ a.pp

instance : IsTotal MORScore ppDescLe := ⟨fun a b => le_total b.pp a.pp⟩

instance : IsTrans MORScore ppDescLe := ⟨fun _ _ _ hab hbc => le_trans hbc hab⟩

/-- Top three of one partition: `modsToScores[key].sort(...).slice(0, 3)`
in `updateUsers` (lines 254-259). -/
def topThree (table : List MORScore) : List MORScore :=
  (List.insertionSort ppDescLe table).take 3

/-- Indexed loop over one partition's top three (lines 279-295): a
score of the given user at index 0/1/2 bumps the top-1/2/3 counter.
(An index beyond 2 cannot occur on a list sliced to three entries; the
source throws `RangeError` there.) -/
def tallyTableAux (uid : Nat) : Nat → Nat × Nat × Nat → List MORScore → Nat × Nat × Nat
  | _, acc, [] => acc
  | i, acc, s :: rest =>
      let acc' :=
        if s.userID ≠ uid then acc
        else if i = 0 then (acc.1 + 1, acc.2.1, acc.2.2)
        else if i = 1 then (acc.1, acc.2.1 + 1, acc.2.2)
        else (acc.1, acc.2.1, acc.2.2 + 1)
      tallyTableAux uid (i + 1) acc' rest

/-- Counter contribution of one partition's top three to one user. -/
def tallyTable (uid : Nat) (acc : Nat × Nat × Nat) (top : List MORScore) :
    Nat × Nat × Nat :=
  tallyTableAux uid 0 acc top

/-- Recount of `top1s/top2s/top3s` for one user across all partitions'
precomputed top-three lists. -/
def countTops (tops : List (List MORScore)) (uid : Nat) : Nat × Nat × Nat :=
  tops.foldl (tallyTable uid) (0, 0, 0)

/-- The user record persisted by `updateUsers` (lines 297-314): every
field from the fresh remote payload except the counters, which come
from the recount, and the autotrack flag, which is preserved from the
stored record. -/
def mkUpdatedUser (osu : OsuUserPayload) (dbUser : MORUser)
    (tops : Nat × Nat × Nat) : MORUser :=
  { userID := osu.id, username := osu.username, countryCode := osu.country_code,
    globalRank := osu.global_rank, pp := osu.pp, accuracy := osu.hit_accuracy,
    playtime := osu.play_time, playcount := osu.play_count,
    rankedScore := osu.ranked_score, maxCombo := osu.maximum_combo,
    replaysWatched := osu.replays_watched_by_others, pfpImageURL := osu.avatar_url,
    top1s := tops.1, top2s := tops.2.1, top3s := tops.2.2,
    autotrack := dbUser.autotrack }

/-- Embedding of `DatabaseUpdater.updateUsers`: read the stored users
and the per-partition top three once, then for each user of the remote
payload found among the stored users persist the rebuilt record. -/
def updateUsersProc (db : MORDb) (payload : List OsuUserPayload) : MORDb :=
  let dbUsers := db.users
  let tops := morModValues.map (fun k => topThree (db.tables k))
  payload.foldl
    (fun acc osuUser =>
      match dbUsers.find? (fun u => u.userID = osuUser.id) with
      | none => acc
      | some dbUser =>
          updateUser acc (mkUpdatedUser osuUser dbUser (countTops tops osuUser.id)))
    db

/-- A remote score used by the ingest evidence below. -/
def scoreHD1 : OsuScore :=
  { id := 1, mods := ["HD"], user_id := 10, username := "u10", pp := 100,
    accuracy := 1, created_at := "d1", beatmap_id := 21, difficulty_rating := 5,
    artist := "ar", title := "ti", version := "ve", cover := "co" }

/-- A remote score whose modifier list has no MORMod equivalent. -/
def scoreRX : OsuScore := { scoreHD1 with id := 2, mods := ["RX"] }

/-- A further valid remote score of the first user. -/
def scoreHD3 : OsuScore := { scoreHD1 with id := 3 }

/-- A valid remote score of the second user. -/
def scoreNM4 : OsuScore := { scoreHD1 with id := 4, mods := [], user_id := 11 }

/-- Ingest batch: the first tracked user's pages hold a valid score, a
score with unconvertible mods, and another valid score; a second
tracked user follows with one valid score. -/
def ingestBatch : List UserFetch :=
  [{ userID := 10, tops := [scoreHD1, scoreRX, scoreHD3],
     firsts := [], recents := [], pinned := [] },
   { userID := 11, tops := [scoreNM4], firsts := [], recents := [], pinned := [] }]

/-- A stored score used as concrete witness input. -/
def sampleScore : MORScore :=
  { scoreID := 9, userID := 10, beatmapID := 21, username := "u", beatmap := "b",
    mods := "HD", pp := 1, accuracy := 1, starRating := 5, date := "d",
    beatmapImageURL := "i" }

/-- First member of a concrete duplicate pair. -/
def dupA : MORScore :=
  { scoreID := 1, userID := 10, beatmapID := 2, username := "u", beatmap := "b",
    mods := "HD", pp := 1, accuracy := 1, starRating := 5, date := "d",
    beatmapImageURL := "i" }

/-- Second member of the duplicate pair: equal except the primary key. -/
def dupB : MORScore := { dupA with scoreID := 2 }

/-- Concrete rank-recount fixtures: three scores of 300/250/200 pp by
three distinct users. -/
def rankA : MORScore := { dupA with scoreID := 31, userID := 1, pp := 300 }

/-- Second-place fixture score. -/
def rankB : MORScore := { dupA with scoreID := 32, userID := 2, pp := 250 }

/-- Third-place fixture score. -/
def rankC : MORScore := { dupA with scoreID := 33, userID := 3, pp := 200 }

/-- A stored user row used by the witnesses. -/
def sampleUser : MORUser :=
  { userID := 1, username := "x", countryCode := "CA", globalRank := 1, pp := 1,
    accuracy := 1, playtime := 1, playcount := 1, rankedScore := 1, maxCombo := 1,
    replaysWatched := 1, pfpImageURL := "p", top1s := 0, top2s := 0, top3s := 0,
    autotrack := true }

/-- Stored user row of the second fixture user. -/
def rankUserB : MORUser := { sampleUser with userID := 2 }

/-- Stored user row of the third fixture user. -/
def rankUserC : MORUser := { sampleUser with userID := 3 }

/-- A remote user payload used by the witnesses. -/
def samplePayload : OsuUserPayload :=
  { id := 1, username := "x", country_code := "CA", global_rank := 1, pp := 1,
    hit_accuracy := 1, play_time := 1, play_count := 1, ranked_score := 1,
    maximum_combo := 1, replays_watched_by_others := 1, avatar_url := "a" }

/-- Remote payload of the second fixture user. -/
def payloadB : OsuUserPayload := { samplePayload with id := 2 }

/-- Remote payload of the third fixture user. -/
def payloadC : OsuUserPayload := { samplePayload with id := 3 }

/- ------------------------------------------------------------------ -/
/- Lemmas about the comparator and the stable sort.                    -/
/- ------------------------------------------------------------------ -/

theorem modCompare_eq_cmpIdx (a b : String) :
    modCompare a b = cmpIdx (jsIndexOf modOrder a) (jsIndexOf modOrder b) := rfl

theorem cmpIdx_le_zero_iff (x y : Int) :
    cmpIdx x y ≤ 0 ↔ (y = -1 ∨ (x ≠ -1 ∧ x ≤ y)) := by
  unfold cmpIdx
  split_ifs <;> omega

theorem jsIndexOf_neg_one_or_nonneg (l : List String) (s : String) :
    jsIndexOf l s = -1 ∨ 0 ≤ jsIndexOf l s := by
  induction l with
  | nil => simp [jsIndexOf]
  | cons x xs ih =>
      simp only [jsIndexOf]
      by_cases hx : x = s
      · simp [hx]
      · simp only [hx, if_false]
        rcases ih with h | h
        · simp [h]
        · rcases eq_or_ne (jsIndexOf xs s) (-1) with h1 | h1
          · simp [h1]
          · simp [h1]
            omega

theorem jsIndexOf_eq_neg_one_iff (l : List String) (s : String) :
    jsIndexOf l s = -1 ↔ s ∉ l := by
  induction l with
  | nil => simp [jsIndexOf]
  | cons x xs ih =>
      simp only [jsIndexOf]
      by_cases hx : x = s
      · simp [hx]
      · simp only [hx, if_false, List.mem_cons]
        rcases eq_or_ne (jsIndexOf xs s) (-1) with h1 | h1
        · simp [h1, ih.mp h1, Ne.symm hx]
        · have h0 : 0 ≤ jsIndexOf xs s :=
            (jsIndexOf_neg_one_or_nonneg xs s).resolve_left h1
          have hmem : s ∈ xs := by
            by_contra hc
            exact h1 (ih.mpr hc)
          simp only [h1, if_false]
          constructor
          · intro h; omega
          · intro h; exact absurd hmem (fun hm => h (Or.inr hm))

theorem jsIndexOf_cons (x : String) (xs : List String) (s : String) :
    jsIndexOf (x :: xs) s =
      if x = s then 0 else if jsIndexOf xs s = -1 then -1 else jsIndexOf xs s + 1 := rfl

theorem jsIndexOf_inj (l : List String) (a b : String)
    (ha : jsIndexOf l a ≠ -1) (hab : jsIndexOf l a = jsIndexOf l b) : a = b := by
  induction l with
  | nil => exact absurd rfl ha
  | cons x xs ih =>
      rw [jsIndexOf_cons] at ha
      rw [jsIndexOf_cons, jsIndexOf_cons] at hab
      by_cases hxa : x = a
      · by_cases hxb : x = b
        · exact hxa.symm.trans hxb
        · exfalso
          rw [if_pos hxa, if_neg hxb] at hab
          by_cases hb1 : jsIndexOf xs b = -1
          · rw [if_pos hb1] at hab; omega
          · rw [if_neg hb1] at hab
            have := (jsIndexOf_neg_one_or_nonneg xs b).resolve_left hb1
            omega
      · by_cases hxb : x = b
        · exfalso
          rw [if_neg hxa, if_pos hxb] at hab
          by_cases ha1 : jsIndexOf xs a = -1
          · rw [if_pos ha1] at hab; omega
          · rw [if_neg ha1] at hab
            have := (jsIndexOf_neg_one_or_nonneg xs a).resolve_left ha1
            omega
        · rw [if_neg hxa, if_neg hxb] at hab
          rw [if_neg hxa] at ha
          by_cases ha1 : jsIndexOf xs a = -1
          · rw [if_pos ha1] at ha; exact absurd rfl ha
          · rw [if_neg ha1] at ha hab
            by_cases hb1 : jsIndexOf xs b = -1
            · rw [if_pos hb1] at hab
              have := (jsIndexOf_neg_one_or_nonneg xs a).resolve_left ha1
              omega
            · rw [if_neg hb1] at hab
              exact ih ha1 (by omega)

instance : IsTotal String modLe :=
  ⟨fun a b => by
    unfold modLe
    rw [modCompare_eq_cmpIdx, modCompare_eq_cmpIdx, cmpIdx_le_zero_iff, cmpIdx_le_zero_iff]
    omega⟩

instance : IsTrans String modLe :=
  ⟨fun a b c hab hbc => by
    unfold modLe at *
    rw [modCompare_eq_cmpIdx, cmpIdx_le_zero_iff] at *
    omega⟩

/-- Two sorted permutations of one another agree when the order relation
is antisymmetric on their elements. -/
theorem eq_of_perm_of_sorted_antisymmOn {α : Type} {r : α → α → Prop} :
    ∀ {l₁ l₂ : List α}, l₁.Perm l₂ → l₁.Sorted r → l₂.Sorted r →
      (∀ a ∈ l₁, ∀ b ∈ l₁, r a b → r b a → a = b) → l₁ = l₂ := by
  intro l₁
  induction l₁ with
  | nil =>
      intro l₂ hp _ _ _
      exact hp.nil_eq
  | cons a t ih =>
      intro l₂ hp hs₁ hs₂ hanti
      cases l₂ with
      | nil => exact absurd hp.symm.nil_eq (by simp)
      | cons b t₂ =>
          have hab : a = b := by
            have hamem : a ∈ b :: t₂ := hp.mem_iff.mp (List.mem_cons_self a t)
            have hbmem : b ∈ a :: t := hp.mem_iff.mpr (List.mem_cons_self b t₂)
            rcases List.mem_cons.mp hamem with h | hat₂
            · exact h
            rcases List.mem_cons.mp hbmem with h | hbt
            · exact h.symm
            have hrab : r a b := (List.sorted_cons.mp hs₁).1 b hbt
            have hrba : r b a := (List.sorted_cons.mp hs₂).1 a hat₂
            exact hanti a (List.mem_cons_self a t) b (List.mem_cons.mpr (Or.inr hbt)) hrab hrba
          subst hab
          have hp' : t.Perm t₂ := hp.cons_inv
          have ht : t = t₂ :=
            ih hp' (List.sorted_cons.mp hs₁).2 (List.sorted_cons.mp hs₂).2
              (fun x hx y hy => hanti x (List.mem_cons.mpr (Or.inr hx))
                y (List.mem_cons.mpr (Or.inr hy)))
          rw [ht]

/-- Insertion sort maps permutations to the same output when the
relation is antisymmetric on the elements involved. -/
theorem insertionSort_eq_of_perm {α : Type} (r : α → α → Prop) [DecidableRel r]
    [IsTotal α r] [IsTrans α r] {l₁ l₂ : List α} (h : l₁.Perm l₂)
    (hanti : ∀ a ∈ l₁, ∀ b ∈ l₁, r a b → r b a → a = b) :
    List.insertionSort r l₁ = List.insertionSort r l₂ := by
  apply eq_of_perm_of_sorted_antisymmOn
    ((List.perm_insertionSort r l₁).trans (h.trans (List.perm_insertionSort r l₂).symm))
    (List.sorted_insertionSort r l₁) (List.sorted_insertionSort r l₂)
  intro a ha b hb
  exact hanti a ((List.mem_insertionSort r).mp ha) b ((List.mem_insertionSort r).mp hb)

theorem sortOsuMods_eq_of_perm (M M' : List String) (hp : M.Perm M')
    (hrec : ∀ t ∈ M, t ∈ modOrder ∨ t = "NM") :
    sortOsuMods M = sortOsuMods M' := by
  unfold sortOsuMods
  apply insertionSort_eq_of_perm modLe (hp.filter _)
  intro a ha b hb hab hba
  have hamem := List.mem_filter.mp ha
  have hbmem := List.mem_filter.mp hb
  have haM : a ∈ modOrder := by
    rcases hrec a hamem.1 with h | h
    · exact h
    · exfalso
      have h2 := hamem.2
      simp [h] at h2
  have hbM : b ∈ modOrder := by
    rcases hrec b hbmem.1 with h | h
    · exact h
    · exfalso
      have h2 := hbmem.2
      simp [h] at h2
  have hia : jsIndexOf modOrder a ≠ -1 :=
    fun hc => (jsIndexOf_eq_neg_one_iff _ _).mp hc haM
  have hib : jsIndexOf modOrder b ≠ -1 :=
    fun hc => (jsIndexOf_eq_neg_one_iff _ _).mp hc hbM
  unfold modLe at hab hba
  rw [modCompare_eq_cmpIdx, cmpIdx_le_zero_iff] at hab hba
  exact jsIndexOf_inj modOrder a b hia (by omega)

/-- C3 (amended): for every list of modifier tokens all of which are
recognized mods (members of the priority list) or the pseudo-token
`NM`, `convertOsuMods` is invariant under permutation of the input:
sorting into the fixed priority order makes the canonical partition key
independent of the input order.  (For unrecognized tokens the stable
sort keeps the input order among themselves, so invariance fails; see
the counterexample.) -/
theorem convertOsuMods_order_invariant (M M' : List String) (hp : M.Perm M')
    (hrec : ∀ t ∈ M, t ∈ modOrder ∨ t = "NM") :
    convertOsuMods M = convertOsuMods M' := by
  unfold convertOsuMods
  rw [sortOsuMods_eq_of_perm M M' hp hrec]

/-- Witness for `convertOsuMods_order_invariant` at a concrete permuted
pair of recognized modifier lists. -/
theorem convertOsuMods_order_invariant_witness :
    (["HD", "DT"] : List String).Perm ["DT", "HD"] ∧
    (∀ t ∈ (["HD", "DT"] : List String), t ∈ modOrder ∨ t = "NM") ∧
    convertOsuMods ["HD", "DT"] = convertOsuMods ["DT", "HD"] :=
  ⟨by decide, by decide, convertOsuMods_order_invariant _ _ (by decide) (by decide)⟩

/-- C3 counterexample: `["FD", "HN"]` is a permutation of
`["HN", "FD"]`, yet `convertOsuMods` maps `["HN", "FD"]` to the
partition key `HD` (the cross-token substring `NF` is deleted from the
joined string `HNFD`) while `["FD", "HN"]` yields an
unknown-modifier-combination error: the comparator leaves the two
unrecognized tokens in input order, so the claim as stated (invariance
for every list of tokens) is false. -/
theorem convertOsuMods_order_dependent_cex :
    (["FD", "HN"] : List String).Perm ["HN", "FD"] ∧
    convertOsuMods ["HN", "FD"] = .ok "HD" ∧
    convertOsuMods ["FD", "HN"] ≠ convertOsuMods ["HN", "FD"] :=
  ⟨by decide, by decide, by decide⟩

/-- C4: `convertOsuMods` maps the empty modifier list to `NM`,
identifies `NC` with `DT`, and deletes `NF`/`SO` so that
`["NF", "SO"]` also canonicalizes to `NM`. -/
theorem convertOsuMods_base_cases :
    convertOsuMods [] = .ok "NM" ∧
    convertOsuMods ["NC"] = convertOsuMods ["DT"] ∧
    convertOsuMods ["DT"] = .ok "DT" ∧
    convertOsuMods ["NF", "SO"] = .ok "NM" :=
  ⟨by decide, by decide, by decide, by decide⟩

/-- C10 counterexample: the `MORMod` enum declares 36 partition keys,
not 35 as the claim (and the specification) states. -/
theorem morModValues_count :
    morModValues.length = 36 ∧ ¬ morModValues.length = 35 :=
  ⟨by decide, by decide⟩

/-- C10 (amended): canonicalization is a fixed point on each of the 36
(not 35) `MORMod` partition keys: splitting any key into two-character
tokens with `modStringToArray` and canonicalizing with
`convertOsuMods` returns the key itself. -/
theorem convertOsuMods_fixed_point :
    ∀ k ∈ morModValues, convertOsuMods (modStringToArray k) = .ok k := by
  decide

/-- Witness for `convertOsuMods_fixed_point` at the key `HDDT`. -/
theorem convertOsuMods_fixed_point_witness :
    "HDDT" ∈ morModValues ∧ convertOsuMods (modStringToArray "HDDT") = .ok "HDDT" :=
  ⟨by decide, convertOsuMods_fixed_point "HDDT" (by decide)⟩

/- ------------------------------------------------------------------ -/
/- Lemmas about makeRequest.                                           -/
/- ------------------------------------------------------------------ -/

theorem makeRequestGo_ok_cons (getTok : Nat → Nat) (b : Nat) (rest : List FetchStep)
    (d : ℚ) (r tok rf : Nat) :
    makeRequestGo getTok (stepOk b :: rest) d r tok rf =
      { outcome := .ok b, sleeps := [d], tokens := [tok], refreshes := rf } := by
  simp [makeRequestGo, stepOk, statusCodeOf]

theorem makeRequestGo_401_cons (getTok : Nat → Nat) (rest : List FetchStep)
    (d : ℚ) (r tok rf : Nat) :
    makeRequestGo getTok (step401 :: rest) d r tok rf =
      { makeRequestGo getTok rest d r (getTok rf) (rf + 1) with
        sleeps := d :: (makeRequestGo getTok rest d r (getTok rf) (rf + 1)).sleeps,
        tokens := tok :: (makeRequestGo getTok rest d r (getTok rf) (rf + 1)).tokens } := by
  simp [makeRequestGo, step401, statusCodeOf]

theorem makeRequestGo_retry_cons (getTok : Nat → Nat) (s : FetchStep) (rest : List FetchStep)
    (d : ℚ) (r tok rf : Nat) (h : retryableStep s) :
    makeRequestGo getTok (s :: rest) d r tok rf =
      { makeRequestGo getTok rest (nextDelay d r s.jitter) (r + 1) tok rf with
        sleeps :=
          d :: (makeRequestGo getTok rest (nextDelay d r s.jitter) (r + 1) tok rf).sleeps,
        tokens :=
          tok :: (makeRequestGo getTok rest (nextDelay d r s.jitter) (r + 1) tok rf).tokens } := by
  obtain ⟨h200, h401, h404, hre⟩ := h
  show (if statusCodeOf s = 200 then _ else _) = _
  rw [if_neg h200, if_neg h401, if_neg h404, if_pos hre]

theorem makeRequestGo_replicate401 (getTok : Nat → Nat) (b : Nat) :
    ∀ (n : Nat) (d : ℚ) (r tok rf : Nat),
      makeRequestGo getTok (List.replicate n step401 ++ [stepOk b]) d r tok rf =
        { outcome := .ok b,
          sleeps := List.replicate (n + 1) d,
          tokens := tok :: (List.range' rf n).map getTok,
          refreshes := rf + n } := by
  intro n
  induction n with
  | zero =>
      intro d r tok rf
      simp [makeRequestGo_ok_cons, List.replicate]
  | succ n ih =>
      intro d r tok rf
      rw [List.replicate_succ, List.cons_append, makeRequestGo_401_cons, ih]
      simp only [List.range'_succ, List.map_cons]
      have h1 : List.replicate (n + 1 + 1) d = d :: List.replicate (n + 1) d := rfl
      have h2 : rf + 1 + n = rf + (n + 1) := by omega
      rw [h1, h2]

/-- C1 (amended): on receipt of an HTTP 401, `makeRequest` refreshes
the credential via `getAccessToken` and retries the same call with the
refreshed token attached — but with no retry limit and no fatal error:
a run of `n` consecutive 401 responses followed by a 200 performs `n`
refreshes, attaches a freshly obtained token to each retry, leaves the
backoff delay untouched, and returns the 200 body.  In particular a
second 401 triggers a further refresh-and-retry instead of failing. -/
theorem makeRequest_401_refresh_retry (n : Nat) (getTok : Nat → Nat) (tok0 b : Nat) :
    makeRequest getTok tok0 (List.replicate n step401 ++ [stepOk b]) =
      { outcome := .ok b,
        sleeps := List.replicate (n + 1) OSU_API_COOLDOWN_MS,
        tokens := tok0 :: (List.range n).map getTok,
        refreshes := n } := by
  unfold makeRequest
  rw [makeRequestGo_replicate401]
  rw [List.range_eq_range']
  simp

/-- C1 counterexample: the claim says a second consecutive 401 is fatal
(an authentication error).  In the code, a `makeRequest` call whose
attempts are answered 401, 401, 200 succeeds: both 401s refresh the
token (tokens 100 and 101 from the refresh stream are attached to the
two retries) and the 200 body is returned. -/
theorem makeRequest_second_401_not_fatal :
    makeRequest (fun i => 100 + i) 7 [step401, step401, stepOk 42] =
      { outcome := .ok 42, sleeps := [1000, 1000, 1000],
        tokens := [7, 100, 101], refreshes := 2 } := by
  decide

theorem jsRound_nonneg_le (j : ℚ) (h0 : 0 ≤ j) (h1 : j < 1) :
    (0 : ℤ) ≤ jsRound (j * 1000) ∧ jsRound (j * 1000) ≤ 1000 := by
  constructor
  · apply Int.le_floor.mpr
    push_cast
    linarith
  · have hlt : jsRound (j * 1000) < 1001 := by
      apply Int.floor_lt.mpr
      push_cast
      linarith
    omega

theorem nextDelay_spec (d : ℚ) (r : Nat) (j : ℚ)
    (hInv : DelayInv d r) (hj0 : 0 ≤ j) (hj1 : j < 1) :
    (d < 64000 → d ≤ nextDelay d r j) ∧
    (64000 ≤ d → 64000 ≤ nextDelay d r j) ∧
    DelayInv (nextDelay d r j) (r + 1) := by
  obtain ⟨hd1, hd2, hd3⟩ := hInv
  by_cases hsat : 64000 ≤ d
  · rw [nextDelay, if_pos hsat]
    obtain ⟨hr0, hr1⟩ := jsRound_nonneg_le j hj0 hj1
    have hc0 : (0 : ℚ) ≤ (jsRound (j * 1000) : ℚ) := by exact_mod_cast hr0
    have hc1 : (jsRound (j * 1000) : ℚ) ≤ 1000 := by exact_mod_cast hr1
    refine ⟨fun h => absurd hsat (by linarith), fun _ => by linarith,
      by linarith, by linarith, fun hlt => absurd hlt (by linarith)⟩
  · push_neg at hsat
    rw [nextDelay, if_neg (by linarith)]
    have hpowr : (1 : ℚ) ≤ (2 : ℚ) ^ r := one_le_pow₀ (by norm_num)
    have hrle : r ≤ 6 := by
      rcases hd3 hsat with ⟨hr0, _⟩ | ⟨hr1, j', hj'0, hj'1, hd⟩
      · omega
      · have h2 : (2 : ℚ) ^ (r - 1) < 64 := by nlinarith
        have h64 : (64 : ℚ) = 2 ^ 6 := by norm_num
        rw [h64] at h2
        have := (pow_lt_pow_iff_right₀ (by norm_num : (1 : ℚ) < 2)).mp h2
        omega
    have hpow64 : (2 : ℚ) ^ r ≤ 64 := by
      have h64 : (64 : ℚ) = 2 ^ 6 := by norm_num
      rw [h64]
      exact pow_le_pow_right₀ (by norm_num) hrle
    refine ⟨fun _ => ?_, fun h => absurd h (by linarith), by nlinarith, by nlinarith, ?_⟩
    · rcases hd3 hsat with ⟨hr0, hd⟩ | ⟨hr1, j', hj'0, hj'1, hd⟩
      · rw [hd, hr0]
        nlinarith
      · have hr' : r - 1 + 1 = r := by omega
        have h2r : (2 : ℚ) ^ r = 2 ^ (r - 1) * 2 := by
          conv_lhs => rw [← hr']
          rw [pow_succ]
        have hp1 : (1 : ℚ) ≤ 2 ^ (r - 1) := one_le_pow₀ (by norm_num)
        rw [hd]
        nlinarith
    · intro _
      right
      refine ⟨by omega, j, hj0, hj1, ?_⟩
      rw [Nat.add_sub_cancel]

theorem makeRequestGo_backoff (getTok : Nat → Nat) :
    ∀ (steps : List FetchStep) (d : ℚ) (r tok rf : Nat), DelayInv d r →
      (∀ s ∈ steps, retryableStep s ∧ 0 ≤ s.jitter ∧ s.jitter < 1) →
      (makeRequestGo getTok steps d r tok rf).sleeps.length = steps.length ∧
      (steps ≠ [] → (makeRequestGo getTok steps d r tok rf).sleeps.head? = some d) ∧
      List.Chain' backoffRel (makeRequestGo getTok steps d r tok rf).sleeps ∧
      (∀ x ∈ (makeRequestGo getTok steps d r tok rf).sleeps, 1000 ≤ x ∧ x ≤ 65000) := by
  intro steps
  induction steps with
  | nil =>
      intro d r tok rf _ _
      simp [makeRequestGo]
  | cons s rest ih =>
      intro d r tok rf hInv hsteps
      obtain ⟨hretry, hj0, hj1⟩ := hsteps s (List.mem_cons_self s rest)
      have hrest : ∀ x ∈ rest, retryableStep x ∧ 0 ≤ x.jitter ∧ x.jitter < 1 :=
        fun x hx => hsteps x (List.mem_cons_of_mem s hx)
      obtain ⟨hmono, hsatmono, hInv'⟩ := nextDelay_spec d r s.jitter hInv hj0 hj1
      rw [makeRequestGo_retry_cons getTok s rest d r tok rf hretry]
      obtain ⟨ihlen, ihhead, ihchain, ihbound⟩ :=
        ih (nextDelay d r s.jitter) (r + 1) tok rf hInv' hrest
      refine ⟨by simp [ihlen], fun _ => by simp, ?_, ?_⟩
      · rw [List.chain'_cons']
        refine ⟨?_, ihchain⟩
        intro b hb
        cases hrest0 : rest with
        | nil =>
            rw [hrest0] at hb
            simp [makeRequestGo] at hb
        | cons r1 rs =>
            have hhd := ihhead (by rw [hrest0]; simp)
            rw [hhd] at hb
            simp only [Option.mem_def, Option.some.injEq] at hb
            subst hb
            exact ⟨hmono, hsatmono⟩
      · intro x hx
        rcases List.mem_cons.mp hx with rfl | hx'
        · exact ⟨hInv.1, hInv.2.1⟩
        · exact ihbound x hx'

/-- C5: within one `makeRequest` call whose attempts are a run of
consecutive retryable failures (429, 5xx, or transport failure), every
attempt — including the first — is preceded by exactly one sleep of
the current delay; the first delay is the configured cooldown (the call
restarts the delay there); consecutive delays are non-decreasing until
they reach the 64-second band and stay at or above 64000 ms once
there; and no delay ever exceeds 64000 + 1000 ms. -/
theorem makeRequest_backoff_spec (getTok : Nat → Nat) (tok0 : Nat) (steps : List FetchStep)
    (hsteps : ∀ s ∈ steps, retryableStep s ∧ 0 ≤ s.jitter ∧ s.jitter < 1) :
    (makeRequest getTok tok0 steps).sleeps.length = steps.length ∧
    (steps ≠ [] → (makeRequest getTok tok0 steps).sleeps.head? = some OSU_API_COOLDOWN_MS) ∧
    List.Chain' backoffRel (makeRequest getTok tok0 steps).sleeps ∧
    (∀ x ∈ (makeRequest getTok tok0 steps).sleeps, 1000 ≤ x ∧ x ≤ 65000) :=
  makeRequestGo_backoff getTok steps OSU_API_COOLDOWN_MS 0 tok0 0
    ⟨by norm_num [OSU_API_COOLDOWN_MS], by norm_num [OSU_API_COOLDOWN_MS],
      fun _ => Or.inl ⟨rfl, rfl⟩⟩ hsteps

/-- Witness for `makeRequest_backoff_spec` on two 429 attempts with
jitter one half. -/
theorem makeRequest_backoff_spec_witness :
    (∀ s ∈ [step429 0, step429 0],
      retryableStep s ∧ 0 ≤ s.jitter ∧ s.jitter < 1) ∧
    ((makeRequest (fun i => i) 0 [step429 0, step429 0]).sleeps.length = 2 ∧
      ([step429 0, step429 0] ≠ ([] : List FetchStep) →
        (makeRequest (fun i => i) 0
          [step429 0, step429 0]).sleeps.head? = some OSU_API_COOLDOWN_MS) ∧
      List.Chain' backoffRel
        (makeRequest (fun i => i) 0 [step429 0, step429 0]).sleeps ∧
      (∀ x ∈ (makeRequest (fun i => i) 0 [step429 0, step429 0]).sleeps,
        1000 ≤ x ∧ x ≤ 65000)) :=
  ⟨by decide, makeRequest_backoff_spec (fun i => i) 0 _ (by decide)⟩

/- ------------------------------------------------------------------ -/
/- Lemmas about the storage gateway and the sync procedures.           -/
/- ------------------------------------------------------------------ -/

/-- C2 evidence: in `getNewScores`, the unknown-modifier-combination
`TypeError` is caught but answered with `return`, which exits the whole
procedure.  On a batch whose first user has a valid score, then a score
with mods `["RX"]`, then another valid score, followed by a second user
with a valid score, the run ends in the early `return` having inserted
only the first score: the first user's remaining score and the entire
second user are silently dropped, contradicting the claim that only
the offending score is skipped and processing continues. -/
theorem getNewScores_unknown_mods_aborts :
    isEarlyReturn (getNewScores (fun _ _ => 0) emptyDb ingestBatch) = true ∧
    ((procDb (getNewScores (fun _ _ => 0) emptyDb ingestBatch)).tables "HD").map
      (fun r => r.scoreID) = [1] ∧
    (procDb (getNewScores (fun _ _ => 0) emptyDb ingestBatch)).tables "NM" = [] :=
  ⟨by decide, by decide, by decide⟩

theorem sameExceptScoreID_symm {r r' : MORScore}
    (h : sameExceptScoreID r r') : sameExceptScoreID r' r := by
  obtain ⟨h1, h2, h3, h4, h5, h6, h7, h8, h9, h10⟩ := h
  exact ⟨h1.symm, h2.symm, h3.symm, h4.symm, h5.symm, h6.symm, h7.symm,
    h8.symm, h9.symm, h10.symm⟩

theorem dedupProcess_cons_none (lookup : Nat → Option String)
    (table : List MORScore) (r : MORScore) (rest : List MORScore)
    (h : lookup r.scoreID = none) :
    dedupProcess lookup table (r :: rest) =
      dedupProcess lookup (table.filter (fun x => x.scoreID ≠ r.scoreID)) rest := by
  simp [dedupProcess, h]

theorem dedupProcess_cons_diverge (lookup : Nat → Option String)
    (table : List MORScore) (r : MORScore) (rest : List MORScore) (d : String)
    (h : lookup r.scoreID = some d) (hd : r.date ≠ d) :
    dedupProcess lookup table (r :: rest) =
      dedupProcess lookup (table.filter (fun x => x.scoreID ≠ r.scoreID)) rest := by
  simp [dedupProcess, h, hd]

theorem dedupProcess_cons_match (lookup : Nat → Option String)
    (table : List MORScore) (r : MORScore) (rest : List MORScore) (d : String)
    (h : lookup r.scoreID = some d) (hd : r.date = d) :
    dedupProcess lookup table (r :: rest) = dedupProcess lookup table rest := by
  simp [dedupProcess, h, hd]

theorem dedupProcess_subset (lookup : Nat → Option String) :
    ∀ (dups table : List MORScore), ∀ x ∈ dedupProcess lookup table dups, x ∈ table := by
  intro dups
  induction dups with
  | nil =>
      intro table x hx
      simpa [dedupProcess] using hx
  | cons r rest ih =>
      intro table x hx
      cases hl : lookup r.scoreID with
      | none =>
          rw [dedupProcess_cons_none lookup table r rest hl] at hx
          exact List.mem_of_mem_filter (ih _ x hx)
      | some d =>
          by_cases hd : r.date = d
          · rw [dedupProcess_cons_match lookup table r rest d hl hd] at hx
            exact ih _ x hx
          · rw [dedupProcess_cons_diverge lookup table r rest d hl hd] at hx
            exact List.mem_of_mem_filter (ih _ x hx)

/-- C6: for a partition holding two records equal in every column
except the primary key, the duplicate-removal pass deletes both when
the remote lookup answers not-found for both ids; deletes a record
whose stored date diverges from the remote `created_at`; and leaves
both records in place when both are found with matching dates.  The
pass is a total function of the lookup answers: no exception escapes. -/
theorem removeDuplicateScores_pair (lookup : Nat → Option String) (r1 r2 : MORScore)
    (hne : r1.scoreID ≠ r2.scoreID) (hsame : sameExceptScoreID r1 r2) :
    (lookup r1.scoreID = none → lookup r2.scoreID = none →
      removeDuplicateScoresTable lookup [r1, r2] = []) ∧
    (∀ d, lookup r1.scoreID = some d → r1.date ≠ d →
      r1 ∉ removeDuplicateScoresTable lookup [r1, r2]) ∧
    (lookup r1.scoreID = some r1.date → lookup r2.scoreID = some r2.date →
      removeDuplicateScoresTable lookup [r1, r2] = [r1, r2]) := by
  have hsame' := sameExceptScoreID_symm hsame
  have hne' : r2.scoreID ≠ r1.scoreID := Ne.symm hne
  have hdup : duplicateRows [r1, r2] = [r1, r2] := by
    simp [duplicateRows, hsame, hsame', hne, hne']
  unfold removeDuplicateScoresTable
  rw [hdup]
  have hf1 : ([r1, r2].filter (fun x => x.scoreID ≠ r1.scoreID)) = [r2] := by
    simp [List.filter, hne']
  have hf2 : ([r2].filter (fun x => x.scoreID ≠ r2.scoreID)) = [] := by
    simp [List.filter]
  refine ⟨?_, ?_, ?_⟩
  · intro h1 h2
    rw [dedupProcess_cons_none lookup _ r1 _ h1, hf1,
      dedupProcess_cons_none lookup _ r2 _ h2, hf2]
    rfl
  · intro d h1 hd hmem
    rw [dedupProcess_cons_diverge lookup _ r1 _ d h1 hd, hf1] at hmem
    have hin : r1 ∈ [r2] := dedupProcess_subset lookup _ _ r1 hmem
    have : r1 = r2 := by simpa using hin
    exact hne (congrArg MORScore.scoreID this)
  · intro h1 h2
    rw [dedupProcess_cons_match lookup _ r1 _ r1.date h1 rfl,
      dedupProcess_cons_match lookup _ r2 _ r2.date h2 rfl]
    rfl

/-- Witness for `removeDuplicateScores_pair`: a concrete duplicate pair
whose ids the remote no longer knows is fully removed. -/
theorem removeDuplicateScores_pair_witness :
    dupA.scoreID ≠ dupB.scoreID ∧ sameExceptScoreID dupA dupB ∧
    removeDuplicateScoresTable (fun _ => none) [dupA, dupB] = [] :=
  ⟨by decide, by decide,
    (removeDuplicateScores_pair (fun _ => none) dupA dupB (by decide) (by decide)).1
      rfl rfl⟩

/-- C8: score insertion is idempotent on the primary key.  If the
score's partition key converts to `k` and its id is fresh in that
partition, the first insert succeeds and appends the record, a second
insert of the same record is a successful no-op returning the identical
database, and reading the partition back finds exactly one record with
that id, identical to the inserted one. -/
theorem insertScore_idempotent (db : MORDb) (s : MORScore) (k : String)
    (hk : convertOsuMods (modStringToArray s.mods) = .ok k)
    (hfresh : ∀ r ∈ db.tables k, r.scoreID ≠ s.scoreID) :
    ∃ db1, insertScore db s = .ok db1 ∧
      insertScore db1 s = .ok db1 ∧
      getTableScores db1 k = getTableScores db k ++ [s] ∧
      (getTableScores db1 k).filter (fun r => r.scoreID = s.scoreID) = [s] := by
  have hex : scoreExistsInTable db s.scoreID k = false := by
    unfold scoreExistsInTable
    rw [List.any_eq_false]
    intro r hr
    simp [hfresh r hr]
  refine ⟨{ db with tables := fun k' =>
      if k' = k then db.tables k ++ [s] else db.tables k' }, ?_, ?_, ?_, ?_⟩
  · simp [insertScore, hk, hex]
  · have hex2 : scoreExistsInTable
        { db with tables := fun k' =>
          if k' = k then db.tables k ++ [s] else db.tables k' } s.scoreID k = true := by
      simp [scoreExistsInTable]
    simp [insertScore, hk, hex2]
  · simp [getTableScores]
  · have hget : getTableScores
        { db with tables := fun k' =>
          if k' = k then db.tables k ++ [s] else db.tables k' } k =
        db.tables k ++ [s] := by
      simp [getTableScores]
    rw [hget, List.filter_append]
    have h1 : (db.tables k).filter (fun r => decide (r.scoreID = s.scoreID)) = [] := by
      rw [List.filter_eq_nil_iff]
      intro r hr
      simp [hfresh r hr]
    rw [h1]
    simp [List.filter]

/-- Witness for `insertScore_idempotent` on the empty database. -/
theorem insertScore_idempotent_witness :
    convertOsuMods (modStringToArray sampleScore.mods) = .ok "HD" ∧
    (∀ r ∈ emptyDb.tables "HD", r.scoreID ≠ sampleScore.scoreID) ∧
    (∃ db1, insertScore emptyDb sampleScore = .ok db1 ∧
      insertScore db1 sampleScore = .ok db1 ∧
      getTableScores db1 "HD" = getTableScores emptyDb "HD" ++ [sampleScore] ∧
      (getTableScores db1 "HD").filter
        (fun r => r.scoreID = sampleScore.scoreID) = [sampleScore]) :=
  ⟨by decide, by decide,
    insertScore_idempotent emptyDb sampleScore "HD" (by decide) (by decide)⟩

/-- C9: `removeUser` only deletes the matching row of the USERS table:
the score partition tables are untouched and every other user row is
preserved; the bot's remove command touches the score tables only when
its `remove_scores` flag is set, in which case exactly the removed
user's rows disappear from every partition. -/
theorem removeUser_frame (db : MORDb) (uid : Nat) :
    (removeUser db uid).tables = db.tables ∧
    (∀ u ∈ db.users, u.userID ≠ uid → u ∈ (removeUser db uid).users) ∧
    (∀ u ∈ (removeUser db uid).users, u ∈ db.users ∧ u.userID ≠ uid) ∧
    (botRemoveUserEffect db uid false).tables = db.tables ∧
    (∀ k ∈ morModValues, ∀ r ∈ (botRemoveUserEffect db uid true).tables k,
      r.userID ≠ uid) ∧
    (∀ k ∈ morModValues, ∀ r ∈ db.tables k, r.userID ≠ uid →
      r ∈ (botRemoveUserEffect db uid true).tables k) := by
  refine ⟨rfl, ?_, ?_, rfl, ?_, ?_⟩
  · intro u hu hne
    simp [removeUser, List.mem_filter, hu, hne]
  · intro u hu
    rw [removeUser] at hu
    have := List.mem_filter.mp hu
    refine ⟨this.1, by simpa using this.2⟩
  · intro k hk r hr
    simp only [botRemoveUserEffect, removeUserScores, if_pos, removeUser] at hr
    rw [if_pos hk] at hr
    have := List.mem_filter.mp hr
    simpa using this.2
  · intro k hk r hr hne
    simp only [botRemoveUserEffect, removeUserScores, if_pos, removeUser]
    rw [if_pos hk]
    simp [List.mem_filter, hr, hne]

theorem topThree_nil : topThree [] = [] := rfl

theorem tallyTable_nil (uid : Nat) (acc : Nat × Nat × Nat) :
    tallyTable uid acc [] = acc := rfl

theorem mkUpdatedUser_userID (p : OsuUserPayload) (u : MORUser)
    (tp : Nat × Nat × Nat) : (mkUpdatedUser p u tp).userID = p.id := rfl

/-- C7: the user-refresh recount.  With one partition (here `NM`)
holding three records of 300/250/200 pp owned by distinct users
`a`/`b`/`c` (in any storage order) and every other partition empty,
`updateUsers` persists for those users the counters (1,0,0), (0,1,0)
and (0,0,1) respectively, built from the fresh remote payload but
keeping each stored record's autotrack flag; any user other than
`a`/`b`/`c` receives zero counters from the recount. -/
theorem updateUsers_rank_recount
    (t : List MORScore) (rA rB rC : MORScore) (a b c : Nat)
    (uA uB uC : MORUser) (pA pB pC : OsuUserPayload)
    (hperm : t.Perm [rA, rB, rC])
    (hppA : rA.pp = 300) (hppB : rB.pp = 250) (hppC : rC.pp = 200)
    (huA : rA.userID = a) (huB : rB.userID = b) (huC : rC.userID = c)
    (huuA : uA.userID = a) (huuB : uB.userID = b) (huuC : uC.userID = c)
    (hpA : pA.id = a) (hpB : pB.id = b) (hpC : pC.id = c)
    (hab : a ≠ b) (hac : a ≠ c) (hbc : b ≠ c) :
    (updateUsersProc
        { users := [uA, uB, uC], tables := fun k => if k = "NM" then t else [] }
        [pA, pB, pC]).users =
      [mkUpdatedUser pA uA (1, 0, 0), mkUpdatedUser pB uB (0, 1, 0),
       mkUpdatedUser pC uC (0, 0, 1)] ∧
    (∀ uid, uid ≠ a → uid ≠ b → uid ≠ c →
      countTops (morModValues.map fun k =>
        topThree (if k = "NM" then t else [])) uid = (0, 0, 0)) ∧
    (∀ (p : OsuUserPayload) (u : MORUser) (tp : Nat × Nat × Nat),
      (mkUpdatedUser p u tp).autotrack = u.autotrack) := by
  have hsorted : List.Sorted ppDescLe [rA, rB, rC] := by
    norm_num [List.sorted_cons, ppDescLe, hppA, hppB, hppC]
  have hsort_eq : List.insertionSort ppDescLe t = [rA, rB, rC] := by
    apply eq_of_perm_of_sorted_antisymmOn
      ((List.perm_insertionSort ppDescLe t).trans hperm)
      (List.sorted_insertionSort ppDescLe t) hsorted
    intro x hx y hy hxy hyx
    have hx' : x ∈ [rA, rB, rC] :=
      hperm.mem_iff.mp ((List.mem_insertionSort ppDescLe).mp hx)
    have hy' : y ∈ [rA, rB, rC] :=
      hperm.mem_iff.mp ((List.mem_insertionSort ppDescLe).mp hy)
    have hpp : x.pp = y.pp := le_antisymm hyx hxy
    fin_cases hx' <;> fin_cases hy' <;>
      first
        | rfl
        | (simp only [hppA, hppB, hppC] at hpp; exact absurd hpp (by norm_num))
  have htop3 : topThree t = [rA, rB, rC] := by
    unfold topThree
    rw [hsort_eq]
    rfl
  have hcount : ∀ uid,
      countTops (morModValues.map fun k => topThree (if k = "NM" then t else [])) uid =
        tallyTable uid (0, 0, 0) [rA, rB, rC] := by
    intro uid
    simp [countTops, morModValues, htop3, topThree_nil, tallyTable_nil]
  have hcA : tallyTable a (0, 0, 0) [rA, rB, rC] = (1, 0, 0) := by
    simp [tallyTable, tallyTableAux, huA, huB, huC, Ne.symm hab, Ne.symm hac]
  have hcB : tallyTable b (0, 0, 0) [rA, rB, rC] = (0, 1, 0) := by
    simp [tallyTable, tallyTableAux, huA, huB, huC, hab, Ne.symm hbc]
  have hcC : tallyTable c (0, 0, 0) [rA, rB, rC] = (0, 0, 1) := by
    simp [tallyTable, tallyTableAux, huA, huB, huC, hac, hbc]
  refine ⟨?_, ?_, fun _ _ _ => rfl⟩
  · simp only [updateUsersProc, List.foldl_cons, List.foldl_nil]
    rw [hpA, hpB, hpC]
    simp [List.find?, huuA, huuB, huuC, hcount, hcA, hcB, hcC, updateUser,
      mkUpdatedUser_userID, hpA, hpB, hpC, hab, hac, hbc,
      Ne.symm hab, Ne.symm hac, Ne.symm hbc,
      -Prod.mk_zero_zero, -Prod.mk_one_one]
  · intro uid h1 h2 h3
    rw [hcount]
    simp [tallyTable, tallyTableAux, huA, huB, huC, Ne.symm h1, Ne.symm h2, Ne.symm h3]

/-- Witness for `updateUsers_rank_recount` on concrete fixtures with
the partition stored in scrambled order. -/
theorem updateUsers_rank_recount_witness :
    ([rankB, rankC, rankA] : List MORScore).Perm [rankA, rankB, rankC] ∧
    rankA.pp = 300 ∧ rankB.pp = 250 ∧ rankC.pp = 200 ∧
    (updateUsersProc
        { users := [sampleUser, rankUserB, rankUserC],
          tables := fun k => if k = "NM" then [rankB, rankC, rankA] else [] }
        [samplePayload, payloadB, payloadC]).users =
      [mkUpdatedUser samplePayload sampleUser (1, 0, 0),
       mkUpdatedUser payloadB rankUserB (0, 1, 0),
       mkUpdatedUser payloadC rankUserC (0, 0, 1)] :=
  ⟨by decide, by decide, by decide, by decide,
    (updateUsers_rank_recount [rankB, rankC, rankA] rankA rankB rankC 1 2 3
      sampleUser rankUserB rankUserC samplePayload payloadB payloadC
      (by decide) (by decide) (by decide) (by decide) (by decide) (by decide)
      (by decide) (by decide) (by decide) (by decide) (by decide) (by decide)
      (by decide) (by decide) (by decide) (by decide)).1⟩

end MOR4
